import Mathlib

/-!
Verification development for the mchat streaming completion engine.

The definitions below are a shallow embedding of `src/mchat/llm_client.py`
(stream reassembly, tool-call delta merging, round loop), `src/mchat/tools.py`
(tool executor), `src/mchat/session.py` (summarization job) and
`src/mchat/tasks.py` (task coordinator).  External collaborators (the HTTP
transport, the JSON decoder for tool arguments, the concrete tool
implementations, the remote completion endpoint) are modelled as parameters:
pure functions or already-classified inputs.  Python dict/str truthiness is
modelled explicitly where the source relies on it.
-/

namespace MChat

/-- Python truthiness of an optional string field (`if d.get(k):`):
absent (`None`) and the empty string are both falsy. -/
def strTruthy (o : Option String) : Bool := !(o.getD "").isEmpty

/-- A raw tool-call fragment as delivered inside a streamed `delta`
(`tool_calls` list entries in `LLMClient._process_chunk`): a zero-based
`index`, optionally an `id`, optionally a partial `function` object. -/
structure FunctionFragment where
  name : Option String := none
  arguments : Option String := none
deriving DecidableEq, Repr

structure RawToolCall where
  index : Nat
  id : Option String := none
  function : Option FunctionFragment := none
deriving DecidableEq, Repr

/-- The `function` object of a merged tool call slot. -/
structure FunctionField where
  name : String := ""
  arguments : String := ""
deriving DecidableEq, Repr

/-- A merged tool-call slot, as built by `LLMClient._merge_tool_calls`:
`{"id": None, "type": "function", "function": {"name": "", "arguments": ""}}`
is the empty placeholder. -/
structure MergedToolCall where
  id : Option String := none
  type : String := "function"
  function : FunctionField := {}
deriving DecidableEq, Repr

instance : Inhabited MergedToolCall := ⟨{}⟩

/-- The empty placeholder appended while growing the merge array. -/
def emptySlot : MergedToolCall :=
  { id := none, type := "function", function := { name := "", arguments := "" } }

/-- One fragment applied to its slot (the mutation body of the `for` loop in
`_merge_tool_calls`): a truthy `id` overwrites the slot id; a present
`function` object appends its truthy `name` and `arguments` onto the slot. -/
def applyFragment (current : MergedToolCall) (tool_call : RawToolCall) : MergedToolCall :=
  let current :=
    if strTruthy tool_call.id then { current with id := tool_call.id } else current
  match tool_call.function with
  | none => current
  | some fn =>
    let current :=
      if strTruthy fn.name then
        { current with function :=
            { current.function with name := current.function.name ++ fn.name.getD "" } }
      else current
    if strTruthy fn.arguments then
      { current with function :=
          { current.function with arguments := current.function.arguments ++ fn.arguments.getD "" } }
    else current

/-- One iteration of the merge loop: grow the array with empty placeholders
until `index` is in range (`while idx >= len(merged): merged.append(...)`),
then update the slot at `index` in place. -/
def mergeStep (merged : List MergedToolCall) (tool_call : RawToolCall) : List MergedToolCall :=
  let grown := merged ++ List.replicate (tool_call.index + 1 - merged.length) emptySlot
  grown.set tool_call.index (applyFragment (grown.getD tool_call.index emptySlot) tool_call)

/-- Shallow embedding of `LLMClient._merge_tool_calls`: fold every fragment,
in arrival order, into the growing slot array and return the whole array. -/
def merge_tool_calls (tool_calls : List RawToolCall) : List MergedToolCall :=
  tool_calls.foldl mergeStep []

/-- Largest `index` carried by any fragment of the list. -/
def maxIndex (tool_calls : List RawToolCall) : Nat :=
  tool_calls.foldl (fun n f => max n f.index) 0

/-- A fragment that carries name and arguments but never an `id`. -/
def noIdFragment : RawToolCall :=
  { index := 0, id := none, function := some { name := some "f", arguments := some "x" } }

/-- Fragment carrying only the function name, from the merge-idempotence
property of the spec. -/
def idemFragName : RawToolCall :=
  { index := 0, id := none, function := some { name := some "f", arguments := none } }

/-- Fragment carrying only the streamed JSON arguments text. -/
def idemFragArgs : RawToolCall :=
  { index := 0, id := none, function := some { name := none, arguments := some "\x7b\"a\":1\x7d" } }

/-- Fragment carrying only the call id. -/
def idemFragId : RawToolCall :=
  { index := 0, id := some "call_1", function := none }

/-- The complete call the three fragments above merge into. -/
def idemMerged : MergedToolCall :=
  { id := some "call_1", type := "function",
    function := { name := "f", arguments := "\x7b\"a\":1\x7d" } }

/-! Shallow embedding of `LLMClient._process_chunk` (the stream reassembler).
The JSON decoding of a `data:` payload is out of scope (external library);
a raw protocol line is therefore modelled already classified by its prefix
and by the outcome of that parse, which is exactly the case split the source
performs. -/

/-- The `delta` object of a streamed choice.  A `delta` that is absent,
`null` or an empty dict is falsy in the source (`if not delta: return`);
all three are modelled as `none` at the `Choice` level, which is
observationally identical because every inner field is guarded by its own
truthiness test.  An absent or `null` `tool_calls` list is the empty list. -/
structure Delta where
  tool_calls : List RawToolCall := []
  reasoning_content : Option String := none
  content : Option String := none
deriving DecidableEq, Repr

/-- One entry of the `choices` list of a streamed chunk. -/
structure Choice where
  finish_reason : Option String := none
  delta : Option Delta := none
deriving DecidableEq, Repr

/-- The parsed JSON object of one `data:` payload. -/
structure ChunkData where
  choices : List Choice := []
deriving DecidableEq, Repr

/-- One raw line of the response stream, classified the way
`_process_chunk` dispatches on it: empty (falsy) line; a line starting with
`error: ` (with the optional result of parsing its payload as JSON and
reading its `message` key, and the raw line kept for the fallback); a line
with neither prefix; the `data: [DONE]` sentinel; a `data: ` line whose
payload fails to parse as JSON; and a `data: ` line parsed into a chunk. -/
inductive Line where
  | empty : Line
  | errorLine (parsedMessage : Option String) (raw : String) : Line
  | noData (raw : String) : Line
  | done : Line
  | malformed (payload : String) : Line
  | chunk (data : ChunkData) : Line
deriving DecidableEq, Repr

/-- Mirror of the `ChunkResult` dataclass. -/
structure ChunkResult where
  thinking : String := ""
  content : String := ""
  error : String := ""
  tool_calls : List RawToolCall := []
  is_done : Bool := false
deriving DecidableEq, Repr

/-- Shallow embedding of `LLMClient._process_chunk`. -/
def process_chunk : Line → ChunkResult
  | .empty => {}
  | .errorLine parsedMessage raw => { error := parsedMessage.getD raw }
  | .noData _ => {}
  | .done => { is_done := true }
  | .malformed _ => {}
  | .chunk chunk_data =>
    match chunk_data.choices with
    | [] => {}
    | choice :: _ =>
      let result : ChunkResult := { is_done := choice.finish_reason == some "stop" }
      match choice.delta with
      | none => result
      | some delta =>
        let result := { result with tool_calls := result.tool_calls ++ delta.tool_calls }
        let result :=
          if strTruthy delta.reasoning_content then
            { result with thinking := result.thinking ++ delta.reasoning_content.getD "" }
          else result
        if strTruthy delta.content then
          { result with content := result.content ++ delta.content.getD "" }
        else result

/-! Shallow embedding of the tool executor (`exec_tool_calls` and
`_execute_single_tool` in `src/mchat/tools.py`).  The concrete tool
implementations and the JSON decoding of the argument payload are external
collaborators; they are modelled as an environment of pure functions whose
error results stand for the exceptions the code catches. -/

/-- A conversation message.  `none` stands for an absent or `null` field of
the underlying dict (tool result dicts carry `tool_call_id` set to the
originating call's possibly-`null` id). -/
structure Message where
  role : String
  content : Option String := none
  tool_call_id : Option String := none
  tool_calls : Option (List MergedToolCall) := none
deriving DecidableEq, Repr

/-- Parsed keyword arguments (the result of `json.loads` on the streamed
arguments text), modelled as key/value pairs. -/
def ToolArgs := List (String × String)

/-- The executor's environment: `parseArgs` models `json.loads` (its error
is the caught `JSONDecodeError` message) and `tools` models the `_TOOLS`
registry, each tool a function whose error is the caught internal
exception's message. -/
structure ToolEnv where
  parseArgs : String → Except String ToolArgs
  tools : String → Option (ToolArgs → Except String String)

/-- ASCII single quote, kept out of string literals. -/
def squote : String := (Char.ofNat 39).toString

/-- Shallow embedding of `_execute_single_tool`: every failure mode is
converted into a normal `tool` role message whose content starts with
`Error:`; the function is total, which is the embedding of the fact that
every exception of the body is caught and no exception propagates. -/
def execute_single_tool (env : ToolEnv) (tool_call : MergedToolCall) : Message :=
  if tool_call.type ≠ "function" then
    { role := "tool", tool_call_id := tool_call.id,
      content := some "Error: Invalid tool call type" }
  else
    let fn_name := tool_call.function.name
    let args_json := tool_call.function.arguments
    match env.tools fn_name with
    | none =>
      { role := "tool", tool_call_id := tool_call.id,
        content := some ("Error: Unknown function " ++ squote ++ fn_name ++ squote) }
    | some fn =>
      match env.parseArgs args_json with
      | .error e =>
        { role := "tool", tool_call_id := tool_call.id,
          content := some ("Error: Invalid JSON arguments - " ++ e) }
      | .ok args =>
        match fn args with
        | .error e =>
          { role := "tool", tool_call_id := tool_call.id,
            content := some ("Error: " ++ e) }
        | .ok result =>
          { role := "tool", tool_call_id := tool_call.id, content := some result }

/-- Shallow embedding of `exec_tool_calls`: one task per call, gathered in
input order (`asyncio.gather` returns results in the order the tasks were
given, not completion order). -/
def exec_tool_calls (env : ToolEnv) (tool_calls : List MergedToolCall) : List Message :=
  tool_calls.map (execute_single_tool env)

/-- The per-call failure modes of `_execute_single_tool`: wrong call type,
unknown tool name, malformed JSON arguments, or a tool-internal exception. -/
def toolCallFails (env : ToolEnv) (tc : MergedToolCall) : Prop :=
  tc.type ≠ "function" ∨
  env.tools tc.function.name = none ∨
  (∃ e, env.parseArgs tc.function.arguments = Except.error e) ∨
  (∃ fn args e, env.tools tc.function.name = some fn ∧
    env.parseArgs tc.function.arguments = Except.ok args ∧ fn args = Except.error e)

/-- An environment with no registered tools and a failing argument parser,
used for closed instances. -/
def envStub : ToolEnv :=
  { parseArgs := fun _ => Except.error "invalid", tools := fun _ => none }

/-- A structurally complete call whose tool name is not registered. -/
def sampleCall : MergedToolCall :=
  { id := some "call_9", type := "function",
    function := { name := "nope", arguments := "\x7b\x7d" } }

/-! Shallow embedding of the round loop of `LLMClient.stream_completion`.
The transport is modelled as a function from the request-attempt number to
the list of raw lines that request's response stream yields; the mutation
of `body["messages"]` — which is the caller's `messages` list, stored by
reference — is modelled as explicit state passing of the message list. -/

/-- The semantic events `stream_completion` yields.  `toolCall` stands for
a `tool_call` event carrying the serialized call (`json.dumps`), and
`toolComplete n` for the `tool_complete` event whose text reports that `n`
tool(s) executed. -/
inductive SEvent where
  | thinking (s : String) : SEvent
  | content (s : String) : SEvent
  | toolCall (tc : MergedToolCall) : SEvent
  | toolComplete (n : Nat) : SEvent
  | error (s : String) : SEvent
deriving DecidableEq, Repr

/-- The `async for line in response.aiter_lines()` body: each line goes
through `_process_chunk`; a truthy `error` yields an error event and breaks
with `finished = True`; truthy `thinking`/`content` are yielded; the line's
tool-call fragments are accumulated; `is_done` breaks with
`finished = True`.  Returns the yielded events, the accumulated fragments
and the final `finished` flag. -/
def process_lines : List Line → List SEvent × List RawToolCall × Bool
  | [] => ([], [], false)
  | line :: rest =>
    let result := process_chunk line
    if result.error ≠ "" then ([SEvent.error result.error], [], true)
    else
      let evs := (if result.thinking ≠ "" then [SEvent.thinking result.thinking] else []) ++
        (if result.content ≠ "" then [SEvent.content result.content] else [])
      if result.is_done then (evs, result.tool_calls, true)
      else
        let r := process_lines rest
        (evs ++ r.1, result.tool_calls ++ r.2.1, r.2.2)

/-- The result of one iteration of the `while True` loop. -/
structure RoundResult where
  messages : List Message
  events : List SEvent
  finished : Bool
  merged : List MergedToolCall
deriving Repr

/-- One iteration of the `while True` loop of `stream_completion`: stream
the lines of this round, merge the accumulated fragments, and if any merged
call exists append the assistant message carrying them (content `null`) to
the running message list, yield one `tool_call` event per call, execute
them, yield the `tool_complete` event and append one `tool` message per
result. -/
def run_round (env : ToolEnv) (lines : List Line) (messages : List Message) : RoundResult :=
  let pr := process_lines lines
  let tool_calls_complete := merge_tool_calls pr.2.1
  if tool_calls_complete.isEmpty then
    { messages := messages, events := pr.1, finished := pr.2.2, merged := [] }
  else
    let tool_messages := exec_tool_calls env tool_calls_complete
    { messages := messages ++
        [{ role := "assistant", content := none, tool_calls := some tool_calls_complete }] ++
        tool_messages,
      events := pr.1 ++ tool_calls_complete.map SEvent.toolCall ++
        [SEvent.toolComplete tool_calls_complete.length],
      finished := pr.2.2,
      merged := tool_calls_complete }

/-- Outcome of running the loop for a given number of request attempts:
either the loop returned (`finished`: the stream finished with no complete
tool calls, `if finished and not tool_calls_complete: return`), or it is
still running after consuming that many attempts. -/
inductive LoopResult where
  | finished (messages : List Message) (events : List SEvent) : LoopResult
  | running (messages : List Message) (events : List SEvent) : LoopResult
deriving Repr

def LoopResult.isRunning : LoopResult → Bool
  | .running _ _ => true
  | .finished _ _ => false

def LoopResult.events : LoopResult → List SEvent
  | .running _ e => e
  | .finished _ e => e

/-- Whether an event is the `error` event. -/
def isErrorEvent : SEvent → Bool
  | .error _ => true
  | _ => false

/-- Shallow embedding of the `while True` round loop of `stream_completion`,
indexed by the number of request attempts still allowed to be observed
(`fuel`).  `stream k` is the line stream of the `k`-th request.  The code
has no round counter: the only exit is a round whose stream finished with
no complete tool calls. -/
def stream_completion (env : ToolEnv) (stream : Nat → List Line)
    (messages : List Message) (attempt : Nat) : Nat → LoopResult
  | 0 => .running messages []
  | fuel + 1 =>
    let r := run_round env (stream attempt) messages
    if r.finished && r.merged.isEmpty then .finished r.messages r.events
    else
      match stream_completion env stream r.messages (attempt + 1) fuel with
      | .finished m e => .finished m (r.events ++ e)
      | .running m e => .running m (r.events ++ e)

/-- A response stream that in every round yields one complete tool-call
fragment and closes with the `[DONE]` sentinel — never a `stop` finish
reason. -/
def completeFragment : RawToolCall :=
  { index := 0, id := some "call_1",
    function := some { name := some "f", arguments := some "\x7b\x7d" } }

def toolDelta : Delta :=
  { tool_calls := [completeFragment], reasoning_content := none, content := none }

def toolChunk : ChunkData :=
  { choices := [{ finish_reason := none, delta := some toolDelta }] }

def alwaysToolStream : Nat → List Line := fun _ => [Line.chunk toolChunk, Line.done]

/-! Shallow embedding of `SessionManager.create_summary`
(`src/mchat/session.py`).  The non-streaming completion call
(`llm_client.completion`) is an external collaborator, modelled as a
function from the prompt to either the returned text or the message of the
exception it raised.  The session fields the job reads and writes are the
state. -/

/-- The session fields `create_summary` touches. -/
structure SessionState where
  summary : String := ""
  last_summarized_index : Int := -1
  history : List Message := []
deriving DecidableEq, Repr

/-- Clamp one bound of a Python slice `l[start:stop]` to `0..n`:
a negative index counts from the end. -/
def sliceBound (n : Nat) (i : Int) : Nat :=
  let j : Int := if i < 0 then i + n else i
  if j < 0 then 0 else min j.toNat n

/-- Python list slicing `l[start:stop]` with step 1 (`stop = none` is an
omitted bound, i.e. the end of the list). -/
def pySlice {α : Type _} (l : List α) (start : Int) (stop : Option Int) : List α :=
  let n := l.length
  let s := sliceBound n start
  let e := match stop with
    | none => n
    | some t => sliceBound n t
  (l.drop s).take (e - s)

/-- Python `str` of an optional message content (`None` prints as `None`). -/
def pyStr (o : Option String) : String := o.getD "None"

/-- The slice `create_summary` selects:
`history[last_summarized_index+1 : end_index]` when an explicit end is
given, else the whole tail when `max_history_turns == -1`, else
`history[start : -max_history_turns*2]`. -/
def summary_slice (max_history_turns : Int) (end_index : Option Int)
    (st : SessionState) : List Message :=
  let start_index := st.last_summarized_index + 1
  let current_messages := st.history
  match end_index with
  | some e => pySlice current_messages start_index (some e)
  | none =>
    if max_history_turns == -1 then pySlice current_messages start_index none
    else pySlice current_messages start_index (some (-(max_history_turns * 2)))

/-- The summarization prompt built from the previous summary and the
flattened slice. -/
def summary_prompt_text (st : SessionState) (messages_to_summarize : List Message) : String :=
  let recent_history_text := String.intercalate "\n"
    (messages_to_summarize.map fun m => m.role ++ ":" ++ pyStr m.content)
  "\nSummarize this conversation, incorporating the previous summary if provided.\n\n" ++
    "Previous summary: " ++ st.summary ++ "\n\nRecent conversation:\n" ++
    recent_history_text ++
    "\n\nCreate a concise summary (2-3 sentences) that:\n" ++
    "- Incorporates key points from the previous summary\n" ++
    "- Adds important new topics and conclusions\n" ++
    "- Maintains context needed for future messages\n\nSummary:\n"

/-- Outcome of one `create_summary` run: silent no-op, success with the
updated state, or a raised `RuntimeError` with the state untouched. -/
inductive SummaryOutcome where
  | noop (st : SessionState) : SummaryOutcome
  | ok (st : SessionState) : SummaryOutcome
  | failed (err : String) (st : SessionState) : SummaryOutcome
deriving DecidableEq, Repr

/-- Shallow embedding of `SessionManager.create_summary`: empty slice is a
no-op (no request issued); otherwise one completion call is made and, on
success, `summary` and `last_summarized_index` are both updated
(`new_index = start_index + len(messages_to_summarize) - 1`); on failure a
`RuntimeError` is raised before any mutation, so the state is unchanged. -/
def create_summary (completion : String → Except String String)
    (max_history_turns : Int) (end_index : Option Int) (st : SessionState) : SummaryOutcome :=
  let start_index := st.last_summarized_index + 1
  let messages_to_summarize := summary_slice max_history_turns end_index st
  if messages_to_summarize.isEmpty then .noop st
  else
    match completion (summary_prompt_text st messages_to_summarize) with
    | .ok text =>
      .ok { st with summary := text,
                    last_summarized_index := start_index + messages_to_summarize.length - 1 }
    | .error e => .failed ("Failed to create conversation summary: " ++ e) st

/-- A one-message session used for closed instances. -/
def sampleSession : SessionState :=
  { summary := "", last_summarized_index := -1,
    history := [{ role := "user", content := some "hi" }] }

/-! Shallow embedding of `TaskManager` (`src/mchat/tasks.py`).  A task is
identified by a fresh numeric id (the `asyncio.Task` object identity); the
registry `self._tasks` (a `defaultdict(set)` keyed by `fn.__name__`) is an
association list from name to the set of registered task ids, and
`task.cancel()` is recorded by appending the id to `cancelled`.  The
scheduled coroutine and the `interval` wrapper do not touch the registry
bookkeeping and are not modelled. -/

structure TaskManager where
  tasks : List (String × List Nat) := []
  cancelled : List Nat := []
  nextId : Nat := 0
deriving DecidableEq, Repr

/-- Lookup of a key in the registry (`fn.__name__ in self._tasks` is
`(assocGet ...).isSome`; reading a known key is `getD []`). -/
def assocGet (m : List (String × List Nat)) (k : String) : Option (List Nat) :=
  match m with
  | [] => none
  | (k2, v) :: rest => if k2 = k then some v else assocGet rest k

/-- Store a value under a key, inserting the key if absent (the defaultdict
behaviour of `self._tasks[name]`). -/
def assocSet (m : List (String × List Nat)) (k : String) (v : List Nat) :
    List (String × List Nat) :=
  match m with
  | [] => [(k, v)]
  | (k2, v2) :: rest => if k2 = k then (k2, v) :: rest else (k2, v2) :: assocSet rest k v

/-- Shallow embedding of `TaskManager.create_task` for a job named `name`:
when `exclusive` and the name is already a registry key, every task
registered under it is cancelled and the set is cleared; then one fresh
task is created and added to the name's set.  (`interval` only selects
which coroutine is wrapped into the task; it does not affect the registry
and is omitted.) -/
def create_task (tm : TaskManager) (name : String) (exclusive : Bool) : TaskManager :=
  let tm1 :=
    if exclusive && (assocGet tm.tasks name).isSome then
      { tm with
        cancelled := tm.cancelled ++ (assocGet tm.tasks name).getD [],
        tasks := assocSet tm.tasks name [] }
    else tm
  { tm1 with
    tasks := assocSet tm1.tasks name ((assocGet tm1.tasks name).getD [] ++ [tm1.nextId]),
    nextId := tm1.nextId + 1 }

/-- Shallow embedding of `TaskManager._remove_task`, the completion
callback: read the set under the name (`defaultdict` read; its key-creating
side effect changes no per-name contents and is dropped), and when the set
is non-empty call `set.remove(task)` — which raises `KeyError` when the
task is not a member.  The `Except.error` result is that uncaught
exception. -/
def remove_task (tm : TaskManager) (task_name : String) (task : Nat) :
    Except String TaskManager :=
  let task_set := (assocGet tm.tasks task_name).getD []
  if task_set.isEmpty then Except.ok tm
  else if task ∈ task_set then
    Except.ok { tm with tasks := assocSet tm.tasks task_name (task_set.erase task) }
  else Except.error "KeyError"

/-- A registry in which the prior task id 1 of `job` has been discarded by
an exclusive re-schedule that registered task id 2 in its place. -/
def staleManager : TaskManager := { tasks := [("job", [2])], cancelled := [], nextId := 3 }

/-! Lemmas about the merge loop. -/

theorem getD_append_replicate (acc : List MergedToolCall) (k i : Nat) :
    (acc ++ List.replicate k emptySlot).getD i emptySlot = acc.getD i emptySlot := by
  simp only [List.getD_eq_getElem?_getD, List.getElem?_append]
  by_cases h : i < acc.length
  · simp [h]
  · simp only [h, if_false]
    rw [List.getElem?_eq_none (by omega : acc.length ≤ i), List.getElem?_replicate]
    split <;> rfl

theorem mergeStep_length (acc : List MergedToolCall) (f : RawToolCall) :
    (mergeStep acc f).length = max acc.length (f.index + 1) := by
  simp only [mergeStep, List.length_set, List.length_append, List.length_replicate]
  omega

theorem getD_mergeStep_ne (acc : List MergedToolCall) (f : RawToolCall) (i : Nat)
    (h : f.index ≠ i) :
    (mergeStep acc f).getD i emptySlot = acc.getD i emptySlot := by
  rw [mergeStep, List.getD_eq_getElem?_getD, List.getElem?_set_ne h,
    ← List.getD_eq_getElem?_getD]
  exact getD_append_replicate acc _ i

theorem applyFragment_id_of_falsy (s : MergedToolCall) (f : RawToolCall)
    (h : strTruthy f.id = false) : (applyFragment s f).id = s.id := by
  simp only [applyFragment, h, Bool.false_eq_true, if_false]
  cases f.function with
  | none => rfl
  | some fn =>
    dsimp only
    split <;> split <;> rfl

theorem getD_mergeStep_id (acc : List MergedToolCall) (f : RawToolCall) (i : Nat)
    (h : f.index = i → strTruthy f.id = false) :
    ((mergeStep acc f).getD i emptySlot).id = (acc.getD i emptySlot).id := by
  by_cases hi : f.index = i
  · subst hi
    have hlt : f.index < (acc ++ List.replicate (f.index + 1 - acc.length) emptySlot).length := by
      simp only [List.length_append, List.length_replicate]
      omega
    rw [mergeStep, List.getD_eq_getElem?_getD, List.getElem?_set_self hlt, Option.getD_some]
    rw [applyFragment_id_of_falsy _ _ (h rfl), getD_append_replicate]
  · rw [getD_mergeStep_ne acc f i hi]

theorem foldl_mergeStep_length (l : List RawToolCall) :
    ∀ acc, (List.foldl mergeStep acc l).length =
      List.foldl (fun n f => max n (f.index + 1)) acc.length l := by
  induction l with
  | nil => intro acc; rfl
  | cons f fs ih =>
    intro acc
    rw [List.foldl_cons, List.foldl_cons, ih, mergeStep_length]

theorem foldl_mergeStep_untouched (l : List RawToolCall) :
    ∀ acc i, (∀ f ∈ l, f.index ≠ i) →
      (List.foldl mergeStep acc l).getD i emptySlot = acc.getD i emptySlot := by
  induction l with
  | nil => intro acc i _; rfl
  | cons f fs ih =>
    intro acc i h
    rw [List.foldl_cons, ih _ _ (fun g hg => h g (List.mem_cons_of_mem _ hg)),
      getD_mergeStep_ne _ _ _ (h f (List.mem_cons_self _ _))]

theorem foldl_mergeStep_id_untouched (l : List RawToolCall) :
    ∀ acc i, (∀ f ∈ l, f.index = i → strTruthy f.id = false) →
      ((List.foldl mergeStep acc l).getD i emptySlot).id = (acc.getD i emptySlot).id := by
  induction l with
  | nil => intro acc i _; rfl
  | cons f fs ih =>
    intro acc i h
    rw [List.foldl_cons, ih _ _ (fun g hg => h g (List.mem_cons_of_mem _ hg)),
      getD_mergeStep_id _ _ _ (h f (List.mem_cons_self _ _))]

theorem foldl_max_succ (l : List RawToolCall) :
    ∀ n, List.foldl (fun n f => max n (f.index + 1)) (n + 1) l =
      List.foldl (fun n f => max n f.index) n l + 1 := by
  induction l with
  | nil => intro n; rfl
  | cons f fs ih =>
    intro n
    rw [List.foldl_cons, List.foldl_cons,
      (by omega : max (n + 1) (f.index + 1) = max n f.index + 1), ih]

theorem seed_le_foldl_max (l : List RawToolCall) :
    ∀ n, n ≤ List.foldl (fun n f => max n (f.index + 1)) n l := by
  induction l with
  | nil => intro n; exact Nat.le_refl n
  | cons f fs ih =>
    intro n
    rw [List.foldl_cons]
    exact Nat.le_trans (Nat.le_max_left _ _) (ih _)

theorem foldl_max_ge_of_mem (l : List RawToolCall) (f : RawToolCall) (hf : f ∈ l) :
    ∀ n, f.index + 1 ≤ List.foldl (fun n g => max n (g.index + 1)) n l := by
  induction l with
  | nil => cases hf
  | cons g gs ih =>
    intro n
    rcases List.mem_cons.mp hf with rfl | hmem
    · rw [List.foldl_cons]
      exact Nat.le_trans (Nat.le_max_right _ _) (seed_le_foldl_max gs _)
    · rw [List.foldl_cons]
      exact ih hmem _

/-! Enumeration of permutations of two- and three-element lists,
used to state the merge-order property. -/

theorem perm_two {α : Type _} {x y : α} {l : List α} (h : l.Perm [x, y]) :
    l = [x, y] ∨ l = [y, x] := by
  have hlen := h.length_eq
  match l, hlen with
  | [a, b], _ =>
    have ha : a ∈ [x, y] := h.subset (List.mem_cons_self _ _)
    simp only [List.mem_cons, List.not_mem_nil, or_false] at ha
    rcases ha with rfl | rfl
    · have h2 := (List.perm_cons a).mp h
      rw [List.perm_singleton] at h2
      simp only [List.cons.injEq, and_true] at h2
      subst h2
      exact Or.inl rfl
    · have h2 := (List.perm_cons a).mp (h.trans (List.Perm.swap a x []))
      rw [List.perm_singleton] at h2
      simp only [List.cons.injEq, and_true] at h2
      subst h2
      exact Or.inr rfl

theorem perm_three {α : Type _} {x y z : α} {l : List α} (h : l.Perm [x, y, z]) :
    l = [x, y, z] ∨ l = [x, z, y] ∨ l = [y, x, z] ∨ l = [y, z, x] ∨
      l = [z, x, y] ∨ l = [z, y, x] := by
  have hlen := h.length_eq
  match l, hlen with
  | [a, b, c], _ =>
    have ha : a ∈ [x, y, z] := h.subset (List.mem_cons_self _ _)
    simp only [List.mem_cons, List.not_mem_nil, or_false] at ha
    rcases ha with rfl | rfl | rfl
    · have h2 := (List.perm_cons a).mp h
      rcases perm_two h2 with h3 | h3 <;>
        (simp only [List.cons.injEq, and_true] at h3; obtain ⟨rfl, rfl⟩ := h3)
      · exact Or.inl rfl
      · exact Or.inr (Or.inl rfl)
    · have h2 := (List.perm_cons a).mp (h.trans (List.Perm.swap a x [z]))
      rcases perm_two h2 with h3 | h3 <;>
        (simp only [List.cons.injEq, and_true] at h3; obtain ⟨rfl, rfl⟩ := h3)
      · exact Or.inr (Or.inr (Or.inl rfl))
      · exact Or.inr (Or.inr (Or.inr (Or.inl rfl)))
    · have h2 := (List.perm_cons a).mp
        (h.trans ((List.Perm.cons x (List.Perm.swap a y [])).trans (List.Perm.swap a x [y])))
      rcases perm_two h2 with h3 | h3 <;>
        (simp only [List.cons.injEq, and_true] at h3; obtain ⟨rfl, rfl⟩ := h3)
      · exact Or.inr (Or.inr (Or.inr (Or.inr (Or.inl rfl))))
      · exact Or.inr (Or.inr (Or.inr (Or.inr (Or.inr rfl))))

/-! Claims about the tool-call merger. -/

/-- C3 counterexample: the claim says a slot that never acquires a non-empty
`id` is absent from the merged output; in the code `_merge_tool_calls`
returns every slot of the array, so a single id-less fragment produces a
merged list that still contains its slot, with `id` equal to `None`. -/
theorem no_id_slot_not_dropped :
    merge_tool_calls [noIdFragment] =
      [{ id := none, type := "function", function := { name := "f", arguments := "x" } }] ∧
    ¬ (∀ c ∈ merge_tool_calls [noIdFragment], strTruthy c.id = true) := by
  constructor
  · decide
  · decide

/-- C3 amended: a slot mentioned by fragments that never carry a truthy `id`
is retained in the merged output with `id = None`; the merger performs no
completeness filtering at end of stream. -/
theorem no_id_slot_retained (l : List RawToolCall) (i : Nat)
    (hmem : ∃ f ∈ l, f.index = i)
    (hid : ∀ f ∈ l, f.index = i → strTruthy f.id = false) :
    i < (merge_tool_calls l).length ∧
      ((merge_tool_calls l).getD i emptySlot).id = none := by
  constructor
  · obtain ⟨f, hf, hfi⟩ := hmem
    rw [merge_tool_calls, foldl_mergeStep_length]
    have := foldl_max_ge_of_mem l f hf (List.length ([] : List MergedToolCall))
    omega
  · rw [merge_tool_calls, foldl_mergeStep_id_untouched _ _ _ hid]
    rfl

/-- Closed instance of the amended C3 statement. -/
theorem no_id_slot_retained_witness :
    (∃ f ∈ [noIdFragment], f.index = 0) ∧
    (∀ f ∈ [noIdFragment], f.index = 0 → strTruthy f.id = false) ∧
    (0 < (merge_tool_calls [noIdFragment]).length ∧
      ((merge_tool_calls [noIdFragment]).getD 0 emptySlot).id = none) :=
  ⟨by decide, by decide, no_id_slot_retained [noIdFragment] 0 (by decide) (by decide)⟩

/-- C4: merging the three index-0 fragments carrying the name, the arguments
and the id, in any arrival order (each field occurs in exactly one fragment,
so every permutation preserves per-field append order), yields exactly one
complete call with id `call_1`, name `f` and arguments the JSON text. -/
theorem merge_idempotence (l : List RawToolCall)
    (h : l.Perm [idemFragName, idemFragArgs, idemFragId]) :
    merge_tool_calls l = [idemMerged] := by
  rcases perm_three h with rfl | rfl | rfl | rfl | rfl | rfl <;> decide

/-- Closed instance of C4 at one concrete arrival order. -/
theorem merge_idempotence_witness :
    merge_tool_calls [idemFragArgs, idemFragId, idemFragName] = [idemMerged] :=
  merge_idempotence [idemFragArgs, idemFragId, idemFragName] (by decide)

/-- C9: the merged output of `_merge_tool_calls` is empty for empty input,
has length exactly one plus the maximum fragment index otherwise, and a slot
mentioned by no fragment stays the empty placeholder (`id` None, type
`function`, empty name and arguments). -/
theorem merge_tool_calls_shape :
    merge_tool_calls [] = [] ∧
    (∀ l : List RawToolCall, l ≠ [] → (merge_tool_calls l).length = maxIndex l + 1) ∧
    (∀ (l : List RawToolCall) (i : Nat), (∀ f ∈ l, f.index ≠ i) →
      (merge_tool_calls l).getD i emptySlot = emptySlot) := by
  refine ⟨rfl, ?_, ?_⟩
  · intro l hl
    match l, hl with
    | f :: fs, _ =>
      rw [merge_tool_calls, List.foldl_cons, foldl_mergeStep_length, maxIndex,
        List.foldl_cons]
      have h0 : (mergeStep [] f).length = max 0 f.index + 1 := by
        rw [mergeStep_length, List.length_nil]
        omega
      rw [h0, foldl_max_succ]
  · intro l i h
    rw [merge_tool_calls, foldl_mergeStep_untouched _ _ _ h]
    rfl

/-! Claims about the round loop. -/

theorem run_round_merged (env : ToolEnv) (lines : List Line) (messages : List Message) :
    (run_round env lines messages).merged = merge_tool_calls (process_lines lines).2.1 := by
  unfold run_round
  dsimp only
  split
  · rename_i hemp
    rw [List.isEmpty_iff] at hemp
    exact hemp.symm
  · rfl

theorem run_round_continue (env : ToolEnv) (lines : List Line) (messages : List Message)
    (h : merge_tool_calls (process_lines lines).2.1 ≠ []) :
    ((run_round env lines messages).finished && (run_round env lines messages).merged.isEmpty) =
      false := by
  rw [run_round_merged, (List.isEmpty_eq_false).mpr h, Bool.and_false]

/-- C1 counterexample: the code's round loop has no `max_rounds` bound (the
identifier exists nowhere in the source); with the default bound of 8
claimed by the spec and a stream that yields a complete tool call every
round and never a `stop` finish reason, the loop has NOT terminated with a
terminal error after 8 request attempts — it is still running and has
emitted no error event. -/
theorem round_bound_missing :
    (stream_completion envStub alwaysToolStream [] 0 8).isRunning = true ∧
    (stream_completion envStub alwaysToolStream [] 0 8).events.any isErrorEvent = false := by
  constructor
  · decide
  · decide

/-- C1 amended: the round loop of `stream_completion` is unbounded.  For
every environment and every stream whose every round merges to at least one
complete tool call (and therefore never ends in `stop` with no tool calls),
the loop is still running after any number of request attempts: no terminal
error is ever produced by a round bound. -/
theorem stream_completion_no_round_bound (env : ToolEnv) (stream : Nat → List Line)
    (h : ∀ k, merge_tool_calls (process_lines (stream k)).2.1 ≠ []) :
    ∀ (fuel : Nat) (messages : List Message) (attempt : Nat),
      (stream_completion env stream messages attempt fuel).isRunning = true := by
  intro fuel
  induction fuel with
  | zero => intro m a; rfl
  | succ n ih =>
    intro m a
    rw [stream_completion]
    rw [run_round_continue env (stream a) m (h a)]
    simp only [Bool.false_eq_true, if_false]
    cases hrec : stream_completion env stream (run_round env (stream a) m).messages (a + 1) n with
    | finished m2 e2 =>
      have := ih (run_round env (stream a) m).messages (a + 1)
      rw [hrec] at this
      cases this
    | running m2 e2 => rfl

/-- Closed instance of the amended C1 statement after three attempts. -/
theorem stream_completion_no_round_bound_witness :
    (∀ k, merge_tool_calls (process_lines (alwaysToolStream k)).2.1 ≠ []) ∧
    (stream_completion envStub alwaysToolStream [] 0 3).isRunning = true :=
  ⟨fun _ => show merge_tool_calls (process_lines [Line.chunk toolChunk, Line.done]).2.1 ≠ []
      by decide,
    stream_completion_no_round_bound envStub alwaysToolStream
      (fun _ => show merge_tool_calls (process_lines [Line.chunk toolChunk, Line.done]).2.1 ≠ []
        by decide) 3 [] 0⟩

/-- C8: the caller's message list is threaded through the loop by reference
(`body["messages"]` is the caller's list); one round that merges complete
tool calls extends it by exactly one assistant message with `null` content
carrying the merged calls, followed by one `tool` message per executed
call, and a round with no complete tool calls leaves it unchanged. -/
theorem run_round_frame (env : ToolEnv) (lines : List Line) (messages : List Message) :
    (merge_tool_calls (process_lines lines).2.1 ≠ [] →
      (run_round env lines messages).messages =
        messages ++
          [{ role := "assistant", content := none,
             tool_calls := some (merge_tool_calls (process_lines lines).2.1) }] ++
          exec_tool_calls env (merge_tool_calls (process_lines lines).2.1) ∧
      (exec_tool_calls env (merge_tool_calls (process_lines lines).2.1)).length =
        (merge_tool_calls (process_lines lines).2.1).length) ∧
    (merge_tool_calls (process_lines lines).2.1 = [] →
      (run_round env lines messages).messages = messages) := by
  constructor
  · intro h
    unfold run_round
    dsimp only
    split
    · rename_i hemp
      exact absurd (List.isEmpty_iff.mp hemp) h
    · exact ⟨rfl, List.length_map _ _⟩
  · intro h
    unfold run_round
    dsimp only
    split
    · rfl
    · rename_i hemp
      exact absurd (by rw [h]; rfl) hemp

/-- Closed instance of C8 at the always-tool stream: the caller's empty
list gains the assistant message and one tool message. -/
theorem run_round_frame_witness :
    merge_tool_calls (process_lines (alwaysToolStream 0)).2.1 ≠ [] ∧
    ((run_round envStub (alwaysToolStream 0) []).messages =
      [] ++
        [{ role := "assistant", content := none,
           tool_calls := some (merge_tool_calls (process_lines (alwaysToolStream 0)).2.1) }] ++
        exec_tool_calls envStub (merge_tool_calls (process_lines (alwaysToolStream 0)).2.1) ∧
      (exec_tool_calls envStub (merge_tool_calls (process_lines (alwaysToolStream 0)).2.1)).length =
        (merge_tool_calls (process_lines (alwaysToolStream 0)).2.1).length) :=
  ⟨by decide, (run_round_frame envStub (alwaysToolStream 0) []).1 (by decide)⟩

/-! Claims about the tool executor. -/

theorem string_append_assoc (a b c : String) : a ++ b ++ c = a ++ (b ++ c) := by
  apply String.ext
  simp [String.data_append, List.append_assoc]

/-- C5: the executor returns exactly one `tool` role message per input call,
in input order; each result carries the originating call's id as
`tool_call_id`; and every per-call failure mode (wrong type, unknown tool,
malformed JSON arguments, tool-internal exception) is converted into a
normal result whose content begins with the `Error:` marker.  The executor
is a total function into messages: the embedding of the fact that no
exception propagates out of it. -/
theorem exec_tool_calls_contract (env : ToolEnv) (calls : List MergedToolCall) :
    (exec_tool_calls env calls).length = calls.length ∧
    (∀ i : Nat, (exec_tool_calls env calls)[i]? =
      (calls[i]?).map (execute_single_tool env)) ∧
    (∀ tc : MergedToolCall, (execute_single_tool env tc).role = "tool" ∧
      (execute_single_tool env tc).tool_call_id = tc.id) ∧
    (∀ tc : MergedToolCall, toolCallFails env tc →
      ∃ rest, (execute_single_tool env tc).content = some ("Error: " ++ rest)) := by
  refine ⟨List.length_map _ _, fun i => List.getElem?_map _ _ _, fun tc => ?_, fun tc h => ?_⟩
  · unfold execute_single_tool
    split
    · exact ⟨rfl, rfl⟩
    · dsimp only
      split
      · exact ⟨rfl, rfl⟩
      · split
        · exact ⟨rfl, rfl⟩
        · split
          · exact ⟨rfl, rfl⟩
          · exact ⟨rfl, rfl⟩
  · unfold execute_single_tool
    by_cases htype : tc.type = "function"
    · simp only [htype, ne_eq, not_true_eq_false, if_false, ite_false]
      cases hl : env.tools tc.function.name with
      | none =>
        refine ⟨"Unknown function " ++ squote ++ tc.function.name ++ squote, ?_⟩
        dsimp only
        rw [show ("Error: Unknown function " : String) = "Error: " ++ "Unknown function " from rfl]
        simp only [string_append_assoc]
      | some fn =>
        dsimp only
        cases hp : env.parseArgs tc.function.arguments with
        | error e =>
          refine ⟨"Invalid JSON arguments - " ++ e, ?_⟩
          dsimp only
          rw [show ("Error: Invalid JSON arguments - " : String) =
            "Error: " ++ "Invalid JSON arguments - " from rfl]
          simp only [string_append_assoc]
        | ok args =>
          dsimp only
          cases hr : fn args with
          | error e => exact ⟨e, rfl⟩
          | ok result =>
            rcases h with h | h | h | h
            · exact absurd htype h
            · rw [hl] at h
              cases h
            · obtain ⟨e, he⟩ := h
              rw [hp] at he
              cases he
            · obtain ⟨fn2, args2, e2, hfn2, hargs2, hrun2⟩ := h
              rw [hl] at hfn2
              injection hfn2 with hfe
              subst hfe
              rw [hp] at hargs2
              injection hargs2 with hae
              subst hae
              rw [hr] at hrun2
              cases hrun2
    · simp only [htype, ne_eq, not_false_eq_true, if_true, ite_true]
      exact ⟨"Invalid tool call type", rfl⟩

/-- Closed instance of C5: one call with an unregistered tool name yields
one ordered `tool` message carrying the call's id and an error-marked
content. -/
theorem exec_tool_calls_contract_witness :
    (exec_tool_calls envStub [sampleCall]).length = 1 ∧
    (execute_single_tool envStub sampleCall).role = "tool" ∧
    (execute_single_tool envStub sampleCall).tool_call_id = sampleCall.id ∧
    toolCallFails envStub sampleCall ∧
    (∃ rest, (execute_single_tool envStub sampleCall).content = some ("Error: " ++ rest)) :=
  ⟨(exec_tool_calls_contract envStub [sampleCall]).1,
    ((exec_tool_calls_contract envStub [sampleCall]).2.2.1 sampleCall).1,
    ((exec_tool_calls_contract envStub [sampleCall]).2.2.1 sampleCall).2,
    Or.inr (Or.inl rfl),
    (exec_tool_calls_contract envStub [sampleCall]).2.2.2 sampleCall (Or.inr (Or.inl rfl))⟩

/-! Claims about the task coordinator. -/

theorem assocGet_assocSet_self (m : List (String × List Nat)) (k : String) (v : List Nat) :
    assocGet (assocSet m k v) k = some v := by
  induction m with
  | nil => simp [assocSet, assocGet]
  | cons p rest ih =>
    obtain ⟨k2, v2⟩ := p
    by_cases h : k2 = k
    · simp [assocSet, assocGet, h]
    · simp [assocSet, assocGet, h, ih]

/-- C7: scheduling an exclusive task under an already-registered name
cancels every prior instance registered under that name and clears them
before registering the fresh one, so that right after the call the registry
holds exactly the single fresh task under that name — never two live
entries. -/
theorem create_task_exclusive (tm : TaskManager) (name : String) :
    assocGet (create_task tm name true).tasks name = some [tm.nextId] ∧
    ∀ t ∈ (assocGet tm.tasks name).getD [], t ∈ (create_task tm name true).cancelled := by
  cases h : assocGet tm.tasks name with
  | none =>
    constructor
    · unfold create_task
      simp only [h, Option.isSome_none, Bool.and_false, Bool.false_eq_true, if_false, h,
        Option.getD_none, List.nil_append, assocGet_assocSet_self]
    · intro t ht
      simp only [Option.getD_none] at ht
      cases ht
  | some l =>
    constructor
    · unfold create_task
      simp only [h, Option.isSome_some, Bool.and_true, if_true, assocGet_assocSet_self,
        Option.getD_some, List.nil_append, assocGet_assocSet_self]
    · intro t ht
      rw [Option.getD_some] at ht
      unfold create_task
      simp only [h, Option.isSome_some, Bool.and_true, if_true, Option.getD_some]
      exact List.mem_append_right _ ht

/-- Closed instance of C7: re-scheduling exclusive `job` over `staleManager`
cancels the registered task 2 and leaves exactly the fresh task 3. -/
theorem create_task_exclusive_witness :
    assocGet (create_task staleManager "job" true).tasks "job" = some [3] ∧
    2 ∈ (create_task staleManager "job" true).cancelled :=
  ⟨(create_task_exclusive staleManager "job").1,
    (create_task_exclusive staleManager "job").2 2 (by decide)⟩

/-- C10 counterexample: the claim says the completion callback never
raises, in particular when the completed task was already discarded by an
exclusive re-schedule while another task of the same name is registered.
Exactly there the code raises: the guard is `if task_set:` (non-emptiness),
not a membership test, so `set.remove` raises `KeyError` for the stale
task. -/
theorem remove_task_raises :
    remove_task staleManager "job" 1 = Except.error "KeyError" := rfl

/-- C10 amended: `_remove_task` removes the completed task when it is a
member of the set under its name; it is a no-op when that set is empty; but
when the set is non-empty and does not contain the task (the stale-callback
case after an exclusive re-schedule) it raises `KeyError`. -/
theorem remove_task_behavior (tm : TaskManager) (name : String) (t : Nat) :
    ((assocGet tm.tasks name).getD [] = [] → remove_task tm name t = Except.ok tm) ∧
    (t ∈ (assocGet tm.tasks name).getD [] →
      remove_task tm name t =
        Except.ok
          { tm with
            tasks := assocSet tm.tasks name (((assocGet tm.tasks name).getD []).erase t) }) ∧
    ((assocGet tm.tasks name).getD [] ≠ [] → t ∉ (assocGet tm.tasks name).getD [] →
      remove_task tm name t = Except.error "KeyError") := by
  refine ⟨?_, ?_, ?_⟩
  · intro h
    unfold remove_task
    rw [if_pos (List.isEmpty_iff.mpr h)]
  · intro h
    unfold remove_task
    have hne : ((assocGet tm.tasks name).getD []).isEmpty = false :=
      List.isEmpty_eq_false.mpr (List.ne_nil_of_mem h)
    rw [if_neg (by rw [hne]; exact Bool.false_ne_true), if_pos h]
  · intro h hmem
    unfold remove_task
    rw [if_neg (by rw [List.isEmpty_eq_false.mpr h]; exact Bool.false_ne_true)]
    rw [if_neg hmem]

/-- Closed instance of the amended C10 statement: empty-set no-op and
successful removal of a registered task. -/
theorem remove_task_behavior_witness :
    (assocGet staleManager.tasks "other").getD [] = [] ∧
    remove_task staleManager "other" 1 = Except.ok staleManager ∧
    2 ∈ (assocGet staleManager.tasks "job").getD [] ∧
    remove_task staleManager "job" 2 =
      Except.ok
        { staleManager with
          tasks := assocSet staleManager.tasks "job"
            (((assocGet staleManager.tasks "job").getD []).erase 2) } :=
  ⟨by decide, (remove_task_behavior staleManager "other" 1).1 (by decide), by decide,
    (remove_task_behavior staleManager "job" 2).2.1 (by decide)⟩

/-! Claims about the summarization job. -/

theorem length_pySlice_none {α : Type _} (l : List α) (start : Int) :
    (pySlice l start none).length = l.length - sliceBound l.length start := by
  unfold pySlice
  dsimp only
  rw [List.length_take, List.length_drop]
  omega

theorem sliceBound_nonneg_eq (n : Nat) (i : Int) (h : 0 ≤ i) :
    sliceBound n i = min i.toNat n := by
  unfold sliceBound
  dsimp only
  rw [if_neg (by omega : ¬ i < 0), if_neg (by omega : ¬ i < 0)]

/-- C6: `create_summary` is a no-op when the selected slice is empty (for
every completion collaborator, so no request is observable); on a
successful completion call it sets `summary` to the returned text and
`last_summarized_index` to `start_index + slice.length - 1`, which in the
default whole-tail configuration equals `len(history) - 1`, i.e. the slice
boundary minus one; and when the completion call raises, it raises the
wrapped `RuntimeError` and leaves the state — `summary` and
`last_summarized_index` included — completely unchanged. -/
theorem create_summary_contract (f : String → Except String String)
    (mht : Int) (ei : Option Int) (st : SessionState) :
    (summary_slice mht ei st = [] →
      ∀ g : String → Except String String, create_summary g mht ei st = .noop st) ∧
    (summary_slice mht ei st ≠ [] →
      ∀ text, f (summary_prompt_text st (summary_slice mht ei st)) = .ok text →
        create_summary f mht ei st =
          .ok { st with
                summary := text,
                last_summarized_index :=
                  st.last_summarized_index + 1 + (summary_slice mht ei st).length - 1 }) ∧
    (summary_slice mht ei st ≠ [] →
      ∀ e, f (summary_prompt_text st (summary_slice mht ei st)) = .error e →
        create_summary f mht ei st =
          .failed ("Failed to create conversation summary: " ++ e) st) ∧
    (ei = none → mht = -1 → -1 ≤ st.last_summarized_index → summary_slice mht ei st ≠ [] →
      st.last_summarized_index + 1 + ((summary_slice mht ei st).length : Int) - 1 =
        (st.history.length : Int) - 1) := by
  refine ⟨?_, ?_, ?_, ?_⟩
  · intro h g
    unfold create_summary
    rw [if_pos (List.isEmpty_iff.mpr h)]
  · intro h text hf
    unfold create_summary
    rw [if_neg (by rw [List.isEmpty_eq_false.mpr h]; exact Bool.false_ne_true)]
    rw [hf]
  · intro h e hf
    unfold create_summary
    rw [if_neg (by rw [List.isEmpty_eq_false.mpr h]; exact Bool.false_ne_true)]
    rw [hf]
  · intro hei hmht hlsi hne
    subst hei
    subst hmht
    have hslice : summary_slice (-1) none st =
        pySlice st.history (st.last_summarized_index + 1) none := by
      simp [summary_slice]
    rw [hslice] at hne ⊢
    have hlen := length_pySlice_none st.history (st.last_summarized_index + 1)
    have hsb := sliceBound_nonneg_eq st.history.length (st.last_summarized_index + 1)
      (by omega)
    have hnz : (pySlice st.history (st.last_summarized_index + 1) none).length ≠ 0 := by
      intro h0
      exact hne (List.eq_nil_of_length_eq_zero h0)
    rw [hlen, hsb] at hnz
    rw [hlen, hsb]
    omega

/-- Closed instance of C6 on a one-message session: success updates both
fields (the new index is the end-of-history boundary minus one), failure
leaves the state untouched. -/
theorem create_summary_contract_witness :
    summary_slice (-1) none sampleSession ≠ [] ∧
    create_summary (fun _ => Except.ok "S") (-1) none sampleSession =
      .ok { sampleSession with summary := "S", last_summarized_index := 0 } ∧
    create_summary (fun _ => Except.error "boom") (-1) none sampleSession =
      .failed ("Failed to create conversation summary: " ++ "boom") sampleSession :=
  ⟨by decide,
    ((create_summary_contract (fun _ => Except.ok "S") (-1) none sampleSession).2.1
      (by decide) "S" rfl).trans (by decide),
    (create_summary_contract (fun _ => Except.error "boom") (-1) none sampleSession).2.2.1
      (by decide) "boom" rfl⟩

/-! Claims about the stream reassembler. -/

/-- C2 counterexample: the claim says a parsed `data:` chunk whose first
choice carries a non-null `finish_reason` other than `stop` (here `length`)
ends the round as an error event carrying the reason.  In the code only
`finish_reason == "stop"` is inspected: the chunk below produces the default
`ChunkResult` — no error text (so `stream_completion` emits no error event)
and `is_done` false (the round is not ended at all). -/
theorem non_stop_finish_not_error :
    process_chunk (Line.chunk { choices := [{ finish_reason := some "length", delta := none }] }) =
      ({} : ChunkResult) ∧
    ¬ ((process_chunk
        (Line.chunk { choices := [{ finish_reason := some "length", delta := none }] })).error ≠ "") ∧
    (process_chunk
        (Line.chunk { choices := [{ finish_reason := some "length", delta := none }] })).is_done = false := by
  refine ⟨by decide, by decide, by decide⟩

/-- C2 amended: for every parsed `data:` chunk with a non-empty `choices`
list, `_process_chunk` never produces an error (parsed chunks cannot end the
round as an error event), and marks the round done exactly when the first
choice's `finish_reason` equals `stop`; every other value, `length` and
`content_filter` included, is silently ignored. -/
theorem finish_reason_handling (fr : Option String) (d : Option Delta) (rest : List Choice) :
    (process_chunk (Line.chunk { choices := { finish_reason := fr, delta := d } :: rest })).error = "" ∧
    (process_chunk (Line.chunk { choices := { finish_reason := fr, delta := d } :: rest })).is_done =
      (fr == some "stop") := by
  cases d with
  | none => exact ⟨rfl, rfl⟩
  | some delta =>
    simp only [process_chunk]
    constructor
    · split <;> split <;> rfl
    · split <;> split <;> rfl

/-- Closed instance of C9 at a concrete fragment list with a gap at index 1. -/
theorem merge_tool_calls_shape_witness :
    ([({ index := 2, id := some "c2", function := some { name := some "g", arguments := none } } :
        RawToolCall)] ≠ []) ∧
    (merge_tool_calls
        [{ index := 2, id := some "c2", function := some { name := some "g", arguments := none } }]).length =
      maxIndex [{ index := 2, id := some "c2", function := some { name := some "g", arguments := none } }] + 1 ∧
    (merge_tool_calls
        [{ index := 2, id := some "c2", function := some { name := some "g", arguments := none } }]).getD 1 emptySlot =
      emptySlot :=
  ⟨by decide,
    merge_tool_calls_shape.2.1 _ (by decide),
    merge_tool_calls_shape.2.2 _ 1 (by decide)⟩

end MChat
